import Mathlib

/-!
Shallow embedding of `src/libgearman/queue_libsqlite3.c`, the sqlite-backed
job-queue storage module of gearmand.

Modelling conventions:

* Byte sequences (unique keys, function names, payloads) are `List Nat`.
  Query text is `List Char`, with one char per byte (the table names and
  statement text involved are plain ASCII in the source).
* The sqlite library is external to the repository.  We model the one table
  the module owns as a `List QueueRow` in row-insertion order (a SELECT
  without ORDER BY iterates in rowid order, which is insertion order here),
  stored inside the `Queue` state together with the fields of
  `gearman_queue_sqlite_st` (`table`, `query_size`, `in_trans`).  The query
  buffer pointer itself carries no observable cross-call state beyond its
  capacity `query_size`, so only the capacity is tracked.
* `sqlite3_prepare` / `sqlite3_step` can fail for external reasons (I/O,
  busy, OOM); each such call site gets an explicit Bool failure flag so that
  every error path of the C code is a reachable path of the model.  The one
  deterministic step failure — the PRIMARY KEY constraint on a duplicate
  `unique_key` — is modelled directly from the table contents.
* `snprintf(buf, lim, fmt, tbl)` writes at most `lim - 1` characters of the
  formatted text and NUL-terminates, so the statement text that reaches
  `sqlite3_prepare` is `(full text).take (lim - 1)`.  Preparing text that is
  not exactly one of the statements this module builds over its own table
  fails (the database holds only the configured table).
* `sqlite3_bind_text` / `sqlite3_bind_blob` are called with explicit byte
  lengths and `SQLITE_TRANSIENT`, and `sqlite3_column_text` /
  `sqlite3_column_blob` with `sqlite3_column_bytes` recover exactly the
  stored bytes, so rows round-trip byte-for-byte; the `(double)` cast on
  `sqlite3_column_int64` is exact on the small priority enumeration.
  An uncommitted INSERT/DELETE is visible to later statements on the same
  (single) connection and no path ever rolls back, so effects are applied
  to the row list immediately; `commit` only toggles the flag.
-/

namespace GearmanSqlite

/-- Raw byte sequences: unique keys, function names, payloads. -/
abbrev Bytes := List Nat

/-- Query text, one `Char` per byte. -/
abbrev Chars := List Char

/-- `gearman_job_priority_t`: the closed priority enumeration. -/
inductive GearmanJobPriority
  | high
  | normal
  | low
deriving DecidableEq

/-- One persisted row of the queue table:
`unique_key TEXT PRIMARY KEY, function_name TEXT, priority INTEGER, data BLOB`. -/
structure QueueRow where
  unique_key : Bytes
  function_name : Bytes
  priority : GearmanJobPriority
  data : Bytes
deriving DecidableEq

/-- The `gearman_return_t` values this module produces. -/
inductive GearmanReturn
  | success
  | queueError
  | memoryAllocationFailure
deriving DecidableEq

/-- `gearman_queue_sqlite_st` together with the sqlite table it owns:
configured table name, query-buffer capacity (`query_size`), the
transaction flag (`in_trans`), and the rows of the queue table. -/
structure Queue where
  table : Chars
  query_size : Nat
  in_trans : Nat
  rows : List QueueRow
deriving DecidableEq

def GEARMAN_QUEUE_QUERY_BUFFER : Nat := 256

def SQLITE_OK : Int := 0

/-- Generic nonzero sqlite result code standing for any failed call
(the callers only test `!= SQLITE_OK`). -/
def SQLITE_ERROR : Int := 1

/-- Text built by `_sqlite_add`:
`INSERT INTO %s (priority,unique_key,function_name,data) VALUES (?,?,?,?)`. -/
def insertQueryFull (tbl : Chars) : Chars :=
  "INSERT INTO ".data ++ tbl ++
    " (priority,unique_key,function_name,data) VALUES (?,?,?,?)".data

/-- Text built by `_sqlite_done`: `DELETE FROM %s WHERE unique_key=?`. -/
def deleteQueryFull (tbl : Chars) : Chars :=
  "DELETE FROM ".data ++ tbl ++ " WHERE unique_key=?".data

/-- Text built by `_sqlite_replay`:
`SELECT unique_key,function_name,priority,data FROM %s`. -/
def selectQueryFull (tbl : Chars) : Chars :=
  "SELECT unique_key,function_name,priority,data FROM ".data ++ tbl

/-- `snprintf` with limit `lim` stores at most `lim - 1` characters of the
formatted text (then the NUL terminator at which `sqlite3_prepare` stops). -/
def snprintfText (full : Chars) (lim : Nat) : Chars :=
  full.take (lim - 1)

/-- `_sqlite_lock` (queue_libsqlite3.c:289-321).  `prepF` / `stepF` inject a
failure of the `sqlite3_prepare` / `sqlite3_step` of `BEGIN TRANSACTION`. -/
def sqliteLock (prepF stepF : Bool) (q : Queue) : Int × Queue :=
  if q.in_trans ≠ 0 then
    (SQLITE_OK, q)
  else if prepF then
    (SQLITE_ERROR, q)
  else if stepF then
    (SQLITE_ERROR, q)
  else
    (SQLITE_OK, { q with in_trans := q.in_trans + 1 })

/-- `_sqlite_commit` (queue_libsqlite3.c:323-352).  `prepF` / `stepF` inject a
failure of the `sqlite3_prepare` / `sqlite3_step` of `COMMIT`. -/
def sqliteCommit (prepF stepF : Bool) (q : Queue) : Int × Queue :=
  if q.in_trans = 0 then
    (SQLITE_OK, q)
  else if prepF then
    (SQLITE_ERROR, q)
  else if stepF then
    (SQLITE_ERROR, q)
  else
    (SQLITE_OK, { q with in_trans := 0 })

/-- Injectable failures of the fallible driver calls inside `_sqlite_add`:
BEGIN prepare/step, `realloc`, INSERT prepare (beyond truncation-induced
syntax errors), INSERT step (beyond the duplicate-key constraint), COMMIT
prepare/step. -/
structure AddFails where
  lockPrep : Bool
  lockStep : Bool
  alloc : Bool
  insPrep : Bool
  insStep : Bool
  comPrep : Bool
  comStep : Bool
deriving DecidableEq

def noAddFails : AddFails :=
  ⟨false, false, false, false, false, false, false⟩

/-- The INSERT build/prepare/step/commit tail of `_sqlite_add`
(queue_libsqlite3.c:422-448); `lim` is the local `query_size` passed as the
`snprintf` limit. -/
def sqliteAddExec (fl : AddFails) (q : Queue) (lim : Nat)
    (unique function_name data : Bytes) (priority : GearmanJobPriority) :
    GearmanReturn × Queue :=
  let text := snprintfText (insertQueryFull q.table) lim
  if fl.insPrep then
    (GearmanReturn.queueError, q)
  else if text ≠ insertQueryFull q.table then
    (GearmanReturn.queueError, q)
  else if fl.insStep then
    (GearmanReturn.queueError, q)
  else if q.rows.any (fun r => decide (r.unique_key = unique)) then
    (GearmanReturn.queueError, q)
  else
    let q1 : Queue :=
      { q with rows := q.rows ++ [⟨unique, function_name, priority, data⟩] }
    let cr := sqliteCommit fl.comPrep fl.comStep q1
    if cr.1 ≠ SQLITE_OK then (GearmanReturn.queueError, cr.2)
    else (GearmanReturn.success, cr.2)

/-- `_sqlite_add` (queue_libsqlite3.c:387-449). -/
def sqliteAdd (fl : AddFails) (q : Queue)
    (unique function_name data : Bytes) (priority : GearmanJobPriority) :
    GearmanReturn × Queue :=
  let lr := sqliteLock fl.lockPrep fl.lockStep q
  if lr.1 ≠ SQLITE_OK then
    (GearmanReturn.queueError, lr.2)
  else
    let q1 := lr.2
    let needed :=
      (unique.length + function_name.length + data.length) * 2 +
        GEARMAN_QUEUE_QUERY_BUFFER
    if needed > q1.query_size then
      if fl.alloc then
        (GearmanReturn.memoryAllocationFailure, q1)
      else
        sqliteAddExec fl { q1 with query_size := needed } needed
          unique function_name data priority
    else
      sqliteAddExec fl q1 needed unique function_name data priority

/-- `_sqlite_flush` (queue_libsqlite3.c:451-457): unconditional no-op. -/
def sqliteFlush (q : Queue) : GearmanReturn × Queue :=
  (GearmanReturn.success, q)

/-- Injectable failures of the fallible driver calls inside `_sqlite_done`. -/
structure DoneFails where
  lockPrep : Bool
  lockStep : Bool
  alloc : Bool
  delPrep : Bool
  delStep : Bool
  comPrep : Bool
  comStep : Bool
deriving DecidableEq

def noDoneFails : DoneFails :=
  ⟨false, false, false, false, false, false, false⟩

/-- The DELETE build/prepare/step/commit tail of `_sqlite_done`
(queue_libsqlite3.c:492-513). -/
def sqliteDoneExec (fl : DoneFails) (q : Queue) (lim : Nat)
    (unique : Bytes) : GearmanReturn × Queue :=
  let text := snprintfText (deleteQueryFull q.table) lim
  if fl.delPrep then
    (GearmanReturn.queueError, q)
  else if text ≠ deleteQueryFull q.table then
    (GearmanReturn.queueError, q)
  else if fl.delStep then
    (GearmanReturn.queueError, q)
  else
    let q1 : Queue :=
      { q with rows := q.rows.filter (fun r => !decide (r.unique_key = unique)) }
    let cr := sqliteCommit fl.comPrep fl.comStep q1
    if cr.1 ≠ SQLITE_OK then (GearmanReturn.queueError, cr.2)
    else (GearmanReturn.success, cr.2)

/-- `_sqlite_done` (queue_libsqlite3.c:459-514).  The `function_name`
argument is declared `__attribute__((unused))` in the source and never
read. -/
def sqliteDone (fl : DoneFails) (q : Queue)
    (unique function_name : Bytes) : GearmanReturn × Queue :=
  let lr := sqliteLock fl.lockPrep fl.lockStep q
  if lr.1 ≠ SQLITE_OK then
    (GearmanReturn.queueError, lr.2)
  else
    let q1 := lr.2
    let needed := unique.length * 2 + GEARMAN_QUEUE_QUERY_BUFFER
    if needed > q1.query_size then
      if fl.alloc then
        (GearmanReturn.memoryAllocationFailure, q1)
      else
        sqliteDoneExec fl { q1 with query_size := needed } needed unique
    else
      sqliteDoneExec fl q1 needed unique

/-- Injectable failures of the fallible driver calls inside
`_sqlite_replay`: `realloc` and the SELECT prepare. -/
structure ReplayFails where
  alloc : Bool
  selPrep : Bool
deriving DecidableEq

def noReplayFails : ReplayFails := ⟨false, false⟩

/-- The row loop of `_sqlite_replay` (queue_libsqlite3.c:551-583): invoke
`add_fn` on each row in order; on the first non-success result stop at once
and return it.  The second component is the trace of rows actually handed
to the callback. -/
def replayLoop (add_fn : QueueRow → GearmanReturn) :
    List QueueRow → GearmanReturn × List QueueRow
  | [] => (GearmanReturn.success, [])
  | r :: rest =>
    let gret := add_fn r
    if gret ≠ GearmanReturn.success then
      (gret, [r])
    else
      let p := replayLoop add_fn rest
      (p.1, r :: p.2)

/-- The SELECT build/prepare/loop tail of `_sqlite_replay`
(queue_libsqlite3.c:543-583); the `snprintf` limit here is the constant
`GEARMAN_QUEUE_QUERY_BUFFER`, not the buffer capacity. -/
def sqliteReplayExec (fl : ReplayFails) (q : Queue)
    (add_fn : QueueRow → GearmanReturn) :
    GearmanReturn × List QueueRow × Queue :=
  let text := snprintfText (selectQueryFull q.table) GEARMAN_QUEUE_QUERY_BUFFER
  if fl.selPrep then
    (GearmanReturn.queueError, [], q)
  else if text ≠ selectQueryFull q.table then
    (GearmanReturn.queueError, [], q)
  else
    let p := replayLoop add_fn q.rows
    (p.1, p.2, q)

/-- `_sqlite_replay` (queue_libsqlite3.c:516-584).  Issues no BEGIN/COMMIT
and no DELETE; the middle component is the trace of rows delivered to the
callback. -/
def sqliteReplay (fl : ReplayFails) (q : Queue)
    (add_fn : QueueRow → GearmanReturn) :
    GearmanReturn × List QueueRow × Queue :=
  if GEARMAN_QUEUE_QUERY_BUFFER > q.query_size then
    if fl.alloc then
      (GearmanReturn.memoryAllocationFailure, [], q)
    else
      sqliteReplayExec fl { q with query_size := GEARMAN_QUEUE_QUERY_BUFFER }
        add_fn
  else
    sqliteReplayExec fl q add_fn

/-- The branch points of `gearman_queue_libsqlite3_init`
(queue_libsqlite3.c:103-238), in source order: `malloc` failure,
`gearman_conf_module_find` failure, whether the `db` option was given,
`sqlite3_open` failure, an unknown option, prepare failure of the catalog
SELECT, finalize failure of the catalog cursor, whether the catalog scan
found the configured table, and prepare/step/finalize failures of the
CREATE TABLE statement. -/
structure InitFails where
  malloc : Bool
  moduleFind : Bool
  dbGiven : Bool
  openF : Bool
  unknownOption : Bool
  catalogPrep : Bool
  catalogFinalize : Bool
  tableExists : Bool
  createPrep : Bool
  createStep : Bool
  createFinalize : Bool
deriving DecidableEq

/-- `gearman_queue_libsqlite3_init`, reduced to its status and whether the
handle was torn down on the way out.  The Bool is `true` when no partially
built handle is retained on return: either the call succeeded (handle is
live and complete), the allocation never happened, or the error path freed
the handle (`free` and/or `gearman_queue_libsqlite3_deinit`).  Branches are
tested in the order the C code reaches them. -/
def sqliteInit (fl : InitFails) : GearmanReturn × Bool :=
  if fl.malloc then
    (GearmanReturn.memoryAllocationFailure, true)
  else if fl.moduleFind then
    (GearmanReturn.queueError, true)
  else if fl.dbGiven && fl.openF then
    (GearmanReturn.queueError, true)
  else if fl.unknownOption then
    (GearmanReturn.queueError, true)
  else if !fl.dbGiven then
    (GearmanReturn.queueError, true)
  else if fl.catalogPrep then
    (GearmanReturn.queueError, true)
  else if fl.catalogFinalize then
    (GearmanReturn.queueError, true)
  else if fl.tableExists then
    (GearmanReturn.success, true)
  else if fl.createPrep then
    (GearmanReturn.queueError, true)
  else if fl.createStep then
    (GearmanReturn.queueError, false)
  else if fl.createFinalize then
    (GearmanReturn.queueError, true)
  else
    (GearmanReturn.success, true)

/-- One queue-backend call together with its injected-failure profile. -/
inductive QueueOp
  | add (fl : AddFails) (u fn dt : Bytes) (p : GearmanJobPriority)
  | done (fl : DoneFails) (u fn : Bytes)
  | replay (fl : ReplayFails) (cb : QueueRow → GearmanReturn)

/-- The handle state after one call. -/
def runOp (q : Queue) : QueueOp → Queue
  | .add fl u fn dt p => (sqliteAdd fl q u fn dt p).2
  | .done fl u fn => (sqliteDone fl q u fn).2
  | .replay fl cb => (sqliteReplay fl q cb).2.2

/-- The handle state after a sequence of calls. -/
def runOps (q : Queue) : List QueueOp → Queue
  | [] => q
  | op :: rest => runOps (runOp q op) rest

/-! ### Helper lemmas about the statement text -/

theorem insertQueryFull_length (tbl : Chars) :
    (insertQueryFull tbl).length = tbl.length + 70 := by
  have h1 : "INSERT INTO ".data.length = 12 := rfl
  have h2 :
      " (priority,unique_key,function_name,data) VALUES (?,?,?,?)".data.length
        = 58 := rfl
  simp [insertQueryFull, h1, h2]

theorem deleteQueryFull_length (tbl : Chars) :
    (deleteQueryFull tbl).length = tbl.length + 31 := by
  have h1 : "DELETE FROM ".data.length = 12 := rfl
  have h2 : " WHERE unique_key=?".data.length = 19 := rfl
  simp [deleteQueryFull, h1, h2]

theorem selectQueryFull_length (tbl : Chars) :
    (selectQueryFull tbl).length = tbl.length + 51 := by
  have h1 :
      "SELECT unique_key,function_name,priority,data FROM ".data.length
        = 51 := rfl
  simp [selectQueryFull, h1]

/-- `snprintf` keeps the whole text whenever it fits under the limit. -/
theorem snprintfText_of_fits (full : Chars) (lim : Nat)
    (h : full.length ≤ lim - 1) : snprintfText full lim = full := by
  simp [snprintfText, List.take_of_length_le h]

/-! ### Helper lemmas about lock and commit -/

theorem sqliteLock_fields (pf sf : Bool) (q : Queue) :
    (sqliteLock pf sf q).2.table = q.table ∧
    (sqliteLock pf sf q).2.query_size = q.query_size ∧
    (sqliteLock pf sf q).2.rows = q.rows := by
  simp only [sqliteLock]
  split
  · simp
  · split
    · simp
    · split
      · simp
      · simp

theorem sqliteCommit_fields (pf sf : Bool) (q : Queue) :
    (sqliteCommit pf sf q).2.table = q.table ∧
    (sqliteCommit pf sf q).2.query_size = q.query_size ∧
    (sqliteCommit pf sf q).2.rows = q.rows := by
  simp only [sqliteCommit]
  split
  · simp
  · split
    · simp
    · split
      · simp
      · simp

/-- With no injected failure, `_sqlite_lock` succeeds and leaves every field
but the transaction flag unchanged; the flag ends up nonzero. -/
theorem sqliteLock_noFail (q : Queue) :
    (sqliteLock false false q).1 = SQLITE_OK ∧
    (sqliteLock false false q).2 =
      { q with in_trans := if q.in_trans = 0 then 1 else q.in_trans } := by
  by_cases h : q.in_trans = 0 <;> simp [sqliteLock, h]

/-- With no injected failure, `_sqlite_commit` succeeds and zeroes the
transaction flag. -/
theorem sqliteCommit_noFail (q : Queue) :
    sqliteCommit false false q = (SQLITE_OK, { q with in_trans := 0 }) := by
  cases q with
  | mk t s i r => by_cases h : i = 0 <;> simp [sqliteCommit, h]

/-! ### Characterization of the operations without injected failures -/

/-- The INSERT tail with no injected failure, a statement text that fits
under the `snprintf` limit, and a fresh key: appends the row and commits. -/
theorem sqliteAddExec_noFail (q : Queue) (lim : Nat)
    (u fn dt : Bytes) (p : GearmanJobPriority)
    (hfit : (insertQueryFull q.table).length ≤ lim - 1)
    (hu : ∀ r ∈ q.rows, r.unique_key ≠ u) :
    sqliteAddExec noAddFails q lim u fn dt p =
      (GearmanReturn.success,
        { q with in_trans := 0, rows := q.rows ++ [⟨u, fn, p, dt⟩] }) := by
  have htext := snprintfText_of_fits _ _ hfit
  have hany : (q.rows.any fun r => decide (r.unique_key = u)) = false := by
    simp only [List.any_eq_false, decide_eq_true_eq]
    exact hu
  simp [sqliteAddExec, noAddFails, htext, hany, sqliteCommit_noFail]

/-- `_sqlite_add` with no injected failure, a table name short enough that
the INSERT text never truncates, and a fresh key: returns success, grows
the buffer capacity to at least the needed size, leaves the transaction
flag Idle, and appends exactly the given row. -/
theorem sqliteAdd_noFail (q : Queue) (u fn dt : Bytes)
    (p : GearmanJobPriority)
    (hT : q.table.length ≤ 185)
    (hu : ∀ r ∈ q.rows, r.unique_key ≠ u) :
    sqliteAdd noAddFails q u fn dt p =
      (GearmanReturn.success,
        { q with
            query_size :=
              max q.query_size
                ((u.length + fn.length + dt.length) * 2 +
                  GEARMAN_QUEUE_QUERY_BUFFER),
            in_trans := 0,
            rows := q.rows ++ [⟨u, fn, p, dt⟩] }) := by
  obtain ⟨t, s, i, rs⟩ := q
  simp only at hT hu
  have hfit : (insertQueryFull t).length ≤
      ((u.length + fn.length + dt.length) * 2 +
        GEARMAN_QUEUE_QUERY_BUFFER) - 1 := by
    rw [insertQueryFull_length]
    simp only [GEARMAN_QUEUE_QUERY_BUFFER]
    omega
  by_cases hcap :
      ((u.length + fn.length + dt.length) * 2 +
        GEARMAN_QUEUE_QUERY_BUFFER) > s
  · have hmax : max s ((u.length + fn.length + dt.length) * 2 +
        GEARMAN_QUEUE_QUERY_BUFFER) =
        (u.length + fn.length + dt.length) * 2 +
          GEARMAN_QUEUE_QUERY_BUFFER := Nat.max_eq_right (Nat.le_of_lt hcap)
    by_cases hi : i = 0 <;>
      simp [sqliteAdd, noAddFails, sqliteLock, hi, hcap, hmax] <;>
      exact sqliteAddExec_noFail _ _ u fn dt p hfit hu
  · have hmax : max s ((u.length + fn.length + dt.length) * 2 +
        GEARMAN_QUEUE_QUERY_BUFFER) = s :=
      Nat.max_eq_left (Nat.le_of_not_lt hcap)
    by_cases hi : i = 0 <;>
      simp [sqliteAdd, noAddFails, sqliteLock, hi, hcap, hmax] <;>
      exact sqliteAddExec_noFail _ _ u fn dt p hfit hu

/-- The DELETE tail with no injected failure and a statement text that fits
under the `snprintf` limit: drops exactly the rows keyed by `u` and
commits. -/
theorem sqliteDoneExec_noFail (q : Queue) (lim : Nat) (u : Bytes)
    (hfit : (deleteQueryFull q.table).length ≤ lim - 1) :
    sqliteDoneExec noDoneFails q lim u =
      (GearmanReturn.success,
        { q with
            in_trans := 0,
            rows := q.rows.filter (fun r => !decide (r.unique_key = u)) }) := by
  have htext := snprintfText_of_fits _ _ hfit
  simp [sqliteDoneExec, noDoneFails, htext, sqliteCommit_noFail]

/-- `_sqlite_done` with no injected failure and a table name short enough
that the DELETE text never truncates: returns success whether or not the
key is present, and keeps exactly the rows whose key differs. -/
theorem sqliteDone_noFail (q : Queue) (u fn : Bytes)
    (hT : q.table.length ≤ 224) :
    sqliteDone noDoneFails q u fn =
      (GearmanReturn.success,
        { q with
            query_size :=
              max q.query_size (u.length * 2 + GEARMAN_QUEUE_QUERY_BUFFER),
            in_trans := 0,
            rows := q.rows.filter (fun r => !decide (r.unique_key = u)) }) := by
  obtain ⟨t, s, i, rs⟩ := q
  simp only at hT
  have hfit : (deleteQueryFull t).length ≤
      (u.length * 2 + GEARMAN_QUEUE_QUERY_BUFFER) - 1 := by
    rw [deleteQueryFull_length]
    simp only [GEARMAN_QUEUE_QUERY_BUFFER]
    omega
  by_cases hcap : (u.length * 2 + GEARMAN_QUEUE_QUERY_BUFFER) > s
  · have hmax : max s (u.length * 2 + GEARMAN_QUEUE_QUERY_BUFFER) =
        u.length * 2 + GEARMAN_QUEUE_QUERY_BUFFER :=
      Nat.max_eq_right (Nat.le_of_lt hcap)
    by_cases hi : i = 0 <;>
      simp [sqliteDone, noDoneFails, sqliteLock, hi, hcap, hmax] <;>
      exact sqliteDoneExec_noFail _ _ u hfit
  · have hmax : max s (u.length * 2 + GEARMAN_QUEUE_QUERY_BUFFER) = s :=
      Nat.max_eq_left (Nat.le_of_not_lt hcap)
    by_cases hi : i = 0 <;>
      simp [sqliteDone, noDoneFails, sqliteLock, hi, hcap, hmax] <;>
      exact sqliteDoneExec_noFail _ _ u hfit

/-- The replay loop visits the longest all-success initial segment plus the
first failing row (if any); it returns success exactly when every row
succeeded, and otherwise the first failing callback result. -/
theorem replayLoop_spec (f : QueueRow → GearmanReturn) (l : List QueueRow) :
    replayLoop f l =
      (match l.dropWhile (fun r => decide (f r = GearmanReturn.success)) with
        | [] => GearmanReturn.success
        | r :: _ => f r,
       l.takeWhile (fun r => decide (f r = GearmanReturn.success)) ++
         (l.dropWhile (fun r => decide (f r = GearmanReturn.success))).take 1) := by
  induction l with
  | nil => rfl
  | cons r rest ih =>
    by_cases h : f r = GearmanReturn.success
    · simp [replayLoop, h, List.dropWhile_cons, List.takeWhile_cons, ih]
    · simp [replayLoop, h, List.dropWhile_cons, List.takeWhile_cons]

/-- When the callback accepts every row, the loop visits all rows in order
and reports success. -/
theorem replayLoop_success (f : QueueRow → GearmanReturn)
    (l : List QueueRow) (h : ∀ r ∈ l, f r = GearmanReturn.success) :
    replayLoop f l = (GearmanReturn.success, l) := by
  induction l with
  | nil => rfl
  | cons r rest ih =>
    have hr := h r (List.mem_cons_self r rest)
    simp [replayLoop, hr, ih fun x hx => h x (List.mem_cons_of_mem r hx)]

/-- `_sqlite_replay` with no injected failure and a table name short enough
that the SELECT text never truncates: runs the loop over the stored rows,
growing the buffer capacity to at least `GEARMAN_QUEUE_QUERY_BUFFER` and
touching nothing else. -/
theorem sqliteReplay_noFail (q : Queue)
    (add_fn : QueueRow → GearmanReturn) (hT : q.table.length ≤ 204) :
    sqliteReplay noReplayFails q add_fn =
      ((replayLoop add_fn q.rows).1, (replayLoop add_fn q.rows).2,
        { q with
            query_size := max q.query_size GEARMAN_QUEUE_QUERY_BUFFER }) := by
  obtain ⟨t, s, i, rs⟩ := q
  simp only at hT
  have hfit : (selectQueryFull t).length ≤ GEARMAN_QUEUE_QUERY_BUFFER - 1 := by
    rw [selectQueryFull_length]
    simp only [GEARMAN_QUEUE_QUERY_BUFFER]
    omega
  have htext := snprintfText_of_fits _ _ hfit
  by_cases hcap : GEARMAN_QUEUE_QUERY_BUFFER > s
  · have hmax : max s GEARMAN_QUEUE_QUERY_BUFFER = GEARMAN_QUEUE_QUERY_BUFFER :=
      Nat.max_eq_right (Nat.le_of_lt hcap)
    simp [sqliteReplay, noReplayFails, sqliteReplayExec, hcap, hmax, htext]
  · have hmax : max s GEARMAN_QUEUE_QUERY_BUFFER = s :=
      Nat.max_eq_left (Nat.le_of_not_lt hcap)
    simp [sqliteReplay, noReplayFails, sqliteReplayExec, hcap, hmax, htext]

/-- Under every combination of injected failures, `_sqlite_replay` leaves
both the stored rows and the transaction flag untouched. -/
theorem sqliteReplay_preserves (fl : ReplayFails) (q : Queue)
    (add_fn : QueueRow → GearmanReturn) :
    (sqliteReplay fl q add_fn).2.2.rows = q.rows ∧
    (sqliteReplay fl q add_fn).2.2.in_trans = q.in_trans := by
  simp only [sqliteReplay, sqliteReplayExec]
  split_ifs <;> simp

/-! ### Failure-path helper lemmas -/

/-- `_sqlite_add` on a `unique_key` already present (no injected failure):
the PRIMARY KEY constraint makes the INSERT step fail, the call returns the
generic queue error, the rows are untouched, and the transaction opened by
`lock` stays open. -/
theorem sqliteAdd_dup (q : Queue) (u fn dt : Bytes) (p : GearmanJobPriority)
    (hT : q.table.length ≤ 185)
    (hdup : ∃ r ∈ q.rows, r.unique_key = u) :
    (sqliteAdd noAddFails q u fn dt p).1 = GearmanReturn.queueError ∧
    (sqliteAdd noAddFails q u fn dt p).2.rows = q.rows ∧
    (sqliteAdd noAddFails q u fn dt p).2.in_trans =
      (if q.in_trans = 0 then 1 else q.in_trans) := by
  obtain ⟨t, s, i, rs⟩ := q
  simp only at hT hdup
  have hfit : (insertQueryFull t).length ≤
      ((u.length + fn.length + dt.length) * 2 +
        GEARMAN_QUEUE_QUERY_BUFFER) - 1 := by
    rw [insertQueryFull_length]
    simp only [GEARMAN_QUEUE_QUERY_BUFFER]
    omega
  have htext := snprintfText_of_fits _ _ hfit
  have hany : (rs.any fun r => decide (r.unique_key = u)) = true := by
    simp only [List.any_eq_true, decide_eq_true_eq]
    exact hdup
  by_cases hi : i = 0 <;>
    by_cases hcap : ((u.length + fn.length + dt.length) * 2 +
      GEARMAN_QUEUE_QUERY_BUFFER) > s <;>
    simp [sqliteAdd, sqliteAddExec, noAddFails, sqliteLock, hi, hcap,
      htext, hany]

/-- `_sqlite_add` when the INSERT step fails for a driver-level reason:
same generic queue error, rows untouched, transaction left open. -/
theorem sqliteAdd_insStepFail (q : Queue) (u fn dt : Bytes)
    (p : GearmanJobPriority) (hT : q.table.length ≤ 185) :
    (sqliteAdd { noAddFails with insStep := true } q u fn dt p).1 =
      GearmanReturn.queueError ∧
    (sqliteAdd { noAddFails with insStep := true } q u fn dt p).2.rows =
      q.rows ∧
    (sqliteAdd { noAddFails with insStep := true } q u fn dt p).2.in_trans =
      (if q.in_trans = 0 then 1 else q.in_trans) := by
  obtain ⟨t, s, i, rs⟩ := q
  simp only at hT
  have hfit : (insertQueryFull t).length ≤
      ((u.length + fn.length + dt.length) * 2 +
        GEARMAN_QUEUE_QUERY_BUFFER) - 1 := by
    rw [insertQueryFull_length]
    simp only [GEARMAN_QUEUE_QUERY_BUFFER]
    omega
  have htext := snprintfText_of_fits _ _ hfit
  by_cases hi : i = 0 <;>
    by_cases hcap : ((u.length + fn.length + dt.length) * 2 +
      GEARMAN_QUEUE_QUERY_BUFFER) > s <;>
    simp [sqliteAdd, sqliteAddExec, noAddFails, sqliteLock, hi, hcap, htext]

/-- If `_sqlite_lock` leaves the flag at zero it was already zero. -/
theorem sqliteLock_idle_of (pf sf : Bool) (q : Queue)
    (h : (sqliteLock pf sf q).2.in_trans = 0) : q.in_trans = 0 := by
  simp only [sqliteLock] at h
  split_ifs at h <;> simp_all

/-- `_sqlite_lock` never lowers the transaction flag. -/
theorem sqliteLock_le (pf sf : Bool) (q : Queue) :
    q.in_trans ≤ (sqliteLock pf sf q).2.in_trans := by
  simp only [sqliteLock]
  split_ifs <;> simp

/-- If `_sqlite_commit` leaves the flag at zero, either it was already zero
or both commit calls went through (the flag is reset only by a COMMIT that
succeeded). -/
theorem sqliteCommit_idle_of (pf sf : Bool) (q : Queue)
    (h : (sqliteCommit pf sf q).2.in_trans = 0) :
    q.in_trans = 0 ∨ (pf = false ∧ sf = false) := by
  by_cases h0 : q.in_trans = 0
  · exact Or.inl h0
  · right
    simp only [sqliteCommit, if_neg h0] at h
    by_cases hp : pf <;> by_cases hs : sf <;>
      simp [hp, hs] at h ⊢ <;> exact absurd h h0

/-- Through the INSERT tail, the flag reaches zero only via a successful
commit (or by having been zero already). -/
theorem sqliteAddExec_idle_of (fl : AddFails) (q : Queue) (lim : Nat)
    (u fn dt : Bytes) (p : GearmanJobPriority)
    (h : (sqliteAddExec fl q lim u fn dt p).2.in_trans = 0) :
    q.in_trans = 0 ∨ (fl.comPrep = false ∧ fl.comStep = false) := by
  simp only [sqliteAddExec] at h
  split_ifs at h <;> simp only [Prod.snd] at h <;> first
    | exact Or.inl h
    | (have h2 := sqliteCommit_idle_of _ _ _ h; exact h2)

/-- Through the DELETE tail, the flag reaches zero only via a successful
commit (or by having been zero already). -/
theorem sqliteDoneExec_idle_of (fl : DoneFails) (q : Queue) (lim : Nat)
    (u : Bytes)
    (h : (sqliteDoneExec fl q lim u).2.in_trans = 0) :
    q.in_trans = 0 ∨ (fl.comPrep = false ∧ fl.comStep = false) := by
  simp only [sqliteDoneExec] at h
  split_ifs at h <;> simp only [Prod.snd] at h <;> first
    | exact Or.inl h
    | (have h2 := sqliteCommit_idle_of _ _ _ h; exact h2)

/-- Across a whole `_sqlite_add`, the flag reaches zero only if it started
zero or the COMMIT succeeded: no path rolls the transaction back. -/
theorem sqliteAdd_idle_of (fl : AddFails) (q : Queue) (u fn dt : Bytes)
    (p : GearmanJobPriority)
    (h : (sqliteAdd fl q u fn dt p).2.in_trans = 0) :
    q.in_trans = 0 ∨ (fl.comPrep = false ∧ fl.comStep = false) := by
  simp only [sqliteAdd] at h
  split_ifs at h with h1 h2 h3
  · exact Or.inl (sqliteLock_idle_of _ _ _ h)
  · exact Or.inl (sqliteLock_idle_of _ _ _ h)
  · rcases sqliteAddExec_idle_of _ _ _ _ _ _ _ h with h' | h'
    · exact Or.inl (sqliteLock_idle_of _ _ _ h')
    · exact Or.inr h'
  · rcases sqliteAddExec_idle_of _ _ _ _ _ _ _ h with h' | h'
    · exact Or.inl (sqliteLock_idle_of _ _ _ h')
    · exact Or.inr h'

/-- Across a whole `_sqlite_done`, the flag reaches zero only if it started
zero or the COMMIT succeeded. -/
theorem sqliteDone_idle_of (fl : DoneFails) (q : Queue) (u fn : Bytes)
    (h : (sqliteDone fl q u fn).2.in_trans = 0) :
    q.in_trans = 0 ∨ (fl.comPrep = false ∧ fl.comStep = false) := by
  simp only [sqliteDone] at h
  split_ifs at h with h1 h2 h3
  · exact Or.inl (sqliteLock_idle_of _ _ _ h)
  · exact Or.inl (sqliteLock_idle_of _ _ _ h)
  · rcases sqliteDoneExec_idle_of _ _ _ _ h with h' | h'
    · exact Or.inl (sqliteLock_idle_of _ _ _ h')
    · exact Or.inr h'
  · rcases sqliteDoneExec_idle_of _ _ _ _ h with h' | h'
    · exact Or.inl (sqliteLock_idle_of _ _ _ h')
    · exact Or.inr h'

/-- The INSERT tail never changes buffer capacity or table name. -/
theorem sqliteAddExec_capacity (fl : AddFails) (q : Queue) (lim : Nat)
    (u fn dt : Bytes) (p : GearmanJobPriority) :
    (sqliteAddExec fl q lim u fn dt p).2.query_size = q.query_size ∧
    (sqliteAddExec fl q lim u fn dt p).2.table = q.table := by
  simp only [sqliteAddExec]
  split_ifs <;> simp [sqliteCommit_fields]

/-- The DELETE tail never changes buffer capacity or table name. -/
theorem sqliteDoneExec_capacity (fl : DoneFails) (q : Queue) (lim : Nat)
    (u : Bytes) :
    (sqliteDoneExec fl q lim u).2.query_size = q.query_size ∧
    (sqliteDoneExec fl q lim u).2.table = q.table := by
  simp only [sqliteDoneExec]
  split_ifs <;> simp [sqliteCommit_fields]

/-! ## The claims -/

/-- C1: for every valid tuple (unique_key, function_name, priority, payload)
— including a zero-length payload and payload bytes of any value — `add`
with that tuple followed by `replay` succeeds and delivers to the callback
exactly one row whose unique_key, function_name, priority and payload are
identical to the inputs, whatever order the SELECT iterates the stored rows
in (any permutation of the stored table). -/
theorem add_then_replay_yields_exactly_one_row (q : Queue)
    (u fn dt : Bytes) (p : GearmanJobPriority)
    (hT : q.table.length ≤ 185)
    (hu : ∀ r ∈ q.rows, r.unique_key ≠ u) :
    (sqliteAdd noAddFails q u fn dt p).1 = GearmanReturn.success ∧
    ∀ q2 : Queue, q2.table = q.table →
      q2.rows.Perm (sqliteAdd noAddFails q u fn dt p).2.rows →
      ∀ cb : QueueRow → GearmanReturn,
        (∀ r ∈ q2.rows, cb r = GearmanReturn.success) →
        (sqliteReplay noReplayFails q2 cb).1 = GearmanReturn.success ∧
        ((sqliteReplay noReplayFails q2 cb).2.1).filter
            (fun r => decide (r = ⟨u, fn, p, dt⟩)) = [⟨u, fn, p, dt⟩] := by
  have hadd := sqliteAdd_noFail q u fn dt p hT hu
  have hrows : (sqliteAdd noAddFails q u fn dt p).2.rows =
      q.rows ++ [⟨u, fn, p, dt⟩] := by rw [hadd]
  refine ⟨by rw [hadd], ?_⟩
  intro q2 htab hperm cb hcb
  rw [hrows] at hperm
  have hT2 : q2.table.length ≤ 204 := by
    rw [htab]; exact hT.trans (by norm_num)
  rw [sqliteReplay_noFail q2 cb hT2, replayLoop_success cb q2.rows hcb]
  have hfilter : (q.rows ++ [(⟨u, fn, p, dt⟩ : QueueRow)]).filter
      (fun r => decide (r = ⟨u, fn, p, dt⟩)) = [⟨u, fn, p, dt⟩] := by
    rw [List.filter_append]
    have h1 : q.rows.filter (fun r => decide (r = ⟨u, fn, p, dt⟩)) = [] :=
      List.filter_eq_nil_iff.mpr (fun r hr => by
        simp only [decide_eq_true_eq]
        intro hcontra
        exact hu r hr (by rw [hcontra]))
    rw [h1]
    simp
  have hpf := hperm.filter (fun r => decide (r = ⟨u, fn, p, dt⟩))
  rw [hfilter] at hpf
  exact ⟨rfl, List.perm_singleton.mp hpf⟩

/-- Witness for C1 at a concrete input: fresh key `[1]`, function `[2]`,
payload bytes `[0, 1, 255]`, on the default table with an empty store. -/
theorem add_then_replay_yields_exactly_one_row_witness :
    (sqliteAdd noAddFails ⟨"gearman_queue".data, 0, 0, []⟩ [1] [2] [0, 1, 255]
        GearmanJobPriority.high).1 = GearmanReturn.success :=
  (add_then_replay_yields_exactly_one_row ⟨"gearman_queue".data, 0, 0, []⟩
    [1] [2] [0, 1, 255] GearmanJobPriority.high (by decide) (by simp)).1

/-- C2: `done` removes precisely the stored rows whose unique_key equals the
given key (no other row is affected, and a subsequent replay no longer
yields such a row), and `done` returns success whether or not such a row
exists: on a key not present the row set is unchanged. -/
theorem done_removes_exactly_that_key (q : Queue) (u fn : Bytes)
    (hT : q.table.length ≤ 204) :
    (sqliteDone noDoneFails q u fn).1 = GearmanReturn.success ∧
    (sqliteDone noDoneFails q u fn).2.rows =
      q.rows.filter (fun r => !decide (r.unique_key = u)) ∧
    (∀ cb : QueueRow → GearmanReturn,
      (∀ r, cb r = GearmanReturn.success) →
      ∀ r ∈ (sqliteReplay noReplayFails (sqliteDone noDoneFails q u fn).2
          cb).2.1, r.unique_key ≠ u) ∧
    ((∀ r ∈ q.rows, r.unique_key ≠ u) →
      (sqliteDone noDoneFails q u fn).2.rows = q.rows) := by
  have hdone := sqliteDone_noFail q u fn (hT.trans (by norm_num))
  have hrows : (sqliteDone noDoneFails q u fn).2.rows =
      q.rows.filter (fun r => !decide (r.unique_key = u)) := by rw [hdone]
  have htab : (sqliteDone noDoneFails q u fn).2.table = q.table := by
    rw [hdone]
  refine ⟨by rw [hdone], hrows, ?_, ?_⟩
  · intro cb hcb r hr
    have hT2 : (sqliteDone noDoneFails q u fn).2.table.length ≤ 204 := by
      rw [htab]; exact hT
    rw [sqliteReplay_noFail _ cb hT2,
      replayLoop_success cb _ (fun x _ => hcb x)] at hr
    rw [hrows] at hr
    have := (List.mem_filter.mp hr).2
    simpa using this
  · intro hnone
    rw [hrows]
    exact List.filter_eq_self.mpr (fun r hr => by
      simpa using hnone r hr)

/-- Witness for C2 at a concrete input: deleting key `[1]` from a store
holding keys `[1]` and `[2]`. -/
theorem done_removes_exactly_that_key_witness :
    (sqliteDone noDoneFails
        ⟨"gearman_queue".data, 0, 0,
          [⟨[1], [7], GearmanJobPriority.high, [9]⟩,
           ⟨[2], [8], GearmanJobPriority.low, []⟩]⟩ [1] [5]).1 =
      GearmanReturn.success :=
  (done_removes_exactly_that_key
    ⟨"gearman_queue".data, 0, 0,
      [⟨[1], [7], GearmanJobPriority.high, [9]⟩,
       ⟨[2], [8], GearmanJobPriority.low, []⟩]⟩ [1] [5] (by decide)).1

/-- C3: a second `add` with a unique_key already present fails with the
generic queue error — the same status an unrelated driver failure of the
INSERT step produces, so duplicates are not distinguished — and leaves the
stored rows (in particular the fields of the existing row) unchanged. -/
theorem add_duplicate_key_generic_failure (q : Queue) (u fn dt : Bytes)
    (p : GearmanJobPriority)
    (hT : q.table.length ≤ 185)
    (hdup : ∃ r ∈ q.rows, r.unique_key = u) :
    (sqliteAdd noAddFails q u fn dt p).1 = GearmanReturn.queueError ∧
    (sqliteAdd noAddFails q u fn dt p).2.rows = q.rows ∧
    (sqliteAdd { noAddFails with insStep := true } q u fn dt p).1 =
      GearmanReturn.queueError := by
  obtain ⟨h1, h2, -⟩ := sqliteAdd_dup q u fn dt p hT hdup
  exact ⟨h1, h2, (sqliteAdd_insStepFail q u fn dt p hT).1⟩

/-- Witness for C3 at a concrete input: re-adding key `[1]`. -/
theorem add_duplicate_key_generic_failure_witness :
    (sqliteAdd noAddFails
        ⟨"gearman_queue".data, 0, 0,
          [⟨[1], [7], GearmanJobPriority.high, [9]⟩]⟩ [1] [3]
        [4] GearmanJobPriority.low).1 = GearmanReturn.queueError :=
  (add_duplicate_key_generic_failure
    ⟨"gearman_queue".data, 0, 0, [⟨[1], [7], GearmanJobPriority.high, [9]⟩]⟩
    [1] [3] [4] GearmanJobPriority.low (by decide)
    ⟨⟨[1], [7], GearmanJobPriority.high, [9]⟩, by simp⟩).1

/-- C4: the transaction flag obeys exactly these transitions — `lock` on an
Open flag is a no-op success; `lock` on an Idle flag issues BEGIN, staying
Idle on failure and becoming Open on success; `commit` on an Idle flag is a
no-op success; `commit` on an Open flag issues COMMIT, staying Open on
failure and becoming Idle on success — and consequently a flag that is at
most 1 stays at most 1 (no nesting, at most one open transaction). -/
theorem transaction_flag_transitions (q : Queue) (pf sf : Bool) :
    (q.in_trans ≠ 0 → sqliteLock pf sf q = (SQLITE_OK, q)) ∧
    (q.in_trans = 0 → (pf = true ∨ sf = true) →
      sqliteLock pf sf q = (SQLITE_ERROR, q)) ∧
    (q.in_trans = 0 →
      sqliteLock false false q = (SQLITE_OK, { q with in_trans := 1 })) ∧
    (q.in_trans = 0 → sqliteCommit pf sf q = (SQLITE_OK, q)) ∧
    (q.in_trans ≠ 0 → (pf = true ∨ sf = true) →
      sqliteCommit pf sf q = (SQLITE_ERROR, q)) ∧
    (q.in_trans ≠ 0 →
      sqliteCommit false false q = (SQLITE_OK, { q with in_trans := 0 })) ∧
    (q.in_trans ≤ 1 → (sqliteLock pf sf q).2.in_trans ≤ 1) ∧
    (q.in_trans ≤ 1 → (sqliteCommit pf sf q).2.in_trans ≤ 1) := by
  refine ⟨?_, ?_, ?_, ?_, ?_, ?_, ?_, ?_⟩
  · intro h
    simp [sqliteLock, h]
  · intro h hf
    rcases hf with hf | hf <;> simp [sqliteLock, h, hf]
  · intro h
    simp [sqliteLock, h]
  · intro h
    simp [sqliteCommit, h]
  · intro h hf
    rcases hf with hf | hf <;> simp [sqliteCommit, h, hf]
  · intro h
    simp [sqliteCommit, h]
  · intro h
    simp only [sqliteLock]
    split_ifs <;> simp <;> omega
  · intro h
    simp only [sqliteCommit]
    split_ifs <;> simp <;> omega

/-- Witness for C4: locking an Idle handle on an empty store. -/
theorem transaction_flag_transitions_witness :
    sqliteLock false false (⟨"gearman_queue".data, 0, 0, []⟩ : Queue) =
      (SQLITE_OK, ⟨"gearman_queue".data, 0, 1, []⟩) :=
  (transaction_flag_transitions ⟨"gearman_queue".data, 0, 0, []⟩
    false false).2.2.1 rfl

/-- C5: no operation ever issues a rollback.  An INSERT-step failure inside
`add` (after `lock` opened the transaction) returns the queue error with
the flag still Open and the rows untouched; for every combination of
injected failures, `add` and `done` end with the flag Idle only if it
started Idle or the COMMIT statement itself succeeded; `lock` never lowers
the flag; and `replay` never touches it. -/
theorem no_rollback_ever (q : Queue) :
    (∀ u fn dt p, q.table.length ≤ 185 → q.in_trans = 0 →
      (sqliteAdd { noAddFails with insStep := true } q u fn dt p).1 =
        GearmanReturn.queueError ∧
      (sqliteAdd { noAddFails with insStep := true } q u fn dt p).2.in_trans
        = 1 ∧
      (sqliteAdd { noAddFails with insStep := true } q u fn dt p).2.rows =
        q.rows) ∧
    (∀ fl u fn dt p, (sqliteAdd fl q u fn dt p).2.in_trans = 0 →
      q.in_trans = 0 ∨ (fl.comPrep = false ∧ fl.comStep = false)) ∧
    (∀ fl u fn, (sqliteDone fl q u fn).2.in_trans = 0 →
      q.in_trans = 0 ∨ (fl.comPrep = false ∧ fl.comStep = false)) ∧
    (∀ pf sf, q.in_trans ≤ (sqliteLock pf sf q).2.in_trans) ∧
    (∀ fl cb, (sqliteReplay fl q cb).2.2.in_trans = q.in_trans) := by
  refine ⟨?_, ?_, ?_, ?_, ?_⟩
  · intro u fn dt p hT hidle
    obtain ⟨h1, h2, h3⟩ := sqliteAdd_insStepFail q u fn dt p hT
    rw [hidle] at h3
    simpa using ⟨h1, h3, h2⟩
  · intro fl u fn dt p h
    exact sqliteAdd_idle_of fl q u fn dt p h
  · intro fl u fn h
    exact sqliteDone_idle_of fl q u fn h
  · intro pf sf
    exact sqliteLock_le pf sf q
  · intro fl cb
    exact (sqliteReplay_preserves fl q cb).2

/-- Witness for C5: an INSERT-step failure on an Idle handle with the
default table leaves the flag Open. -/
theorem no_rollback_ever_witness :
    (sqliteAdd { noAddFails with insStep := true }
        (⟨"gearman_queue".data, 0, 0, []⟩ : Queue) [1] [2] [3]
        GearmanJobPriority.normal).2.in_trans = 1 :=
  ((no_rollback_ever ⟨"gearman_queue".data, 0, 0, []⟩).1 [1] [2] [3]
    GearmanJobPriority.normal (by decide) rfl).2.1

/-- C6: the claim reads "every failure path of init — including failure of
the CREATE TABLE statement — performs full teardown of the partially built
handle".  The code contradicts it on exactly one path: when the CREATE
TABLE step fails (queue_libsqlite3.c:216-221) the function returns the
error after only finalizing the statement, never calling
`gearman_queue_libsqlite3_deinit` or `free` — unlike every sibling failure
path, which does tear the handle down. -/
theorem init_create_step_failure_skips_teardown :
    sqliteInit
        ⟨false, false, true, false, false, false, false, false, false,
          true, false⟩ =
      (GearmanReturn.queueError, false) ∧
    ∀ fl : InitFails, fl.createStep = false → (sqliteInit fl).2 = true := by
  refine ⟨rfl, ?_⟩
  intro fl h
  obtain ⟨b1, b2, b3, b4, b5, b6, b7, b8, b9, b10, b11⟩ := fl
  dsimp only at h
  subst h
  simp [sqliteInit, apply_ite Prod.snd]

/-- Witness for C6: any non-CREATE-step failure path does tear down, e.g.
a catalog prepare failure. -/
theorem init_create_step_failure_skips_teardown_witness :
    (sqliteInit
        ⟨false, false, true, false, false, true, false, false, false,
          false, false⟩).2 = true :=
  init_create_step_failure_skips_teardown.2
    ⟨false, false, true, false, false, true, false, false, false,
      false, false⟩ rfl

/-- `_sqlite_add` never shrinks the query-buffer capacity, whatever fails. -/
theorem sqliteAdd_capacity_mono (fl : AddFails) (q : Queue)
    (u fn dt : Bytes) (p : GearmanJobPriority) :
    q.query_size ≤ (sqliteAdd fl q u fn dt p).2.query_size := by
  have hl : (sqliteLock fl.lockPrep fl.lockStep q).2.query_size =
      q.query_size := (sqliteLock_fields _ _ q).2.1
  simp only [sqliteAdd]
  split_ifs with h1 h2 h3
  · exact le_of_eq hl.symm
  · exact le_of_eq hl.symm
  · rw [(sqliteAddExec_capacity fl _ _ u fn dt p).1]
    dsimp only
    omega
  · rw [(sqliteAddExec_capacity fl _ _ u fn dt p).1, hl]

/-- `_sqlite_done` never shrinks the query-buffer capacity, whatever
fails. -/
theorem sqliteDone_capacity_mono (fl : DoneFails) (q : Queue)
    (u fn : Bytes) :
    q.query_size ≤ (sqliteDone fl q u fn).2.query_size := by
  have hl : (sqliteLock fl.lockPrep fl.lockStep q).2.query_size =
      q.query_size := (sqliteLock_fields _ _ q).2.1
  simp only [sqliteDone]
  split_ifs with h1 h2 h3
  · exact le_of_eq hl.symm
  · exact le_of_eq hl.symm
  · rw [(sqliteDoneExec_capacity fl _ _ u).1]
    dsimp only
    omega
  · rw [(sqliteDoneExec_capacity fl _ _ u).1, hl]

/-- `_sqlite_replay` never shrinks the query-buffer capacity, whatever
fails. -/
theorem sqliteReplay_capacity_mono (fl : ReplayFails) (q : Queue)
    (cb : QueueRow → GearmanReturn) :
    q.query_size ≤ (sqliteReplay fl q cb).2.2.query_size := by
  simp only [sqliteReplay, sqliteReplayExec]
  split_ifs <;> simp <;> omega

/-- No single call shrinks the query-buffer capacity. -/
theorem runOp_capacity_mono (q : Queue) (op : QueueOp) :
    q.query_size ≤ (runOp q op).query_size := by
  cases op with
  | add fl u fn dt p => exact sqliteAdd_capacity_mono fl q u fn dt p
  | done fl u fn => exact sqliteDone_capacity_mono fl q u fn
  | replay fl cb => exact sqliteReplay_capacity_mono fl q cb

/-- No sequence of calls shrinks the query-buffer capacity. -/
theorem runOps_capacity_mono (ops : List QueueOp) (q : Queue) :
    q.query_size ≤ (runOps q ops).query_size := by
  induction ops generalizing q with
  | nil => exact le_refl _
  | cons op rest ih =>
    exact le_trans (runOp_capacity_mono q op) (ih (runOp q op))

/-- C7 counterexample to "the handle is otherwise unchanged" on a resize
failure: from an Idle handle with an empty buffer, an `add` whose `realloc`
fails returns the allocation error, but the handle differs from the initial
one — the `lock` issued before the resize has set the transaction flag
Open, and no path resets it. -/
theorem alloc_failure_not_handle_unchanged_cex :
    (sqliteAdd { noAddFails with alloc := true }
        (⟨"gearman_queue".data, 0, 0, []⟩ : Queue) [] [] []
        GearmanJobPriority.normal).1 =
      GearmanReturn.memoryAllocationFailure ∧
    (sqliteAdd { noAddFails with alloc := true }
        (⟨"gearman_queue".data, 0, 0, []⟩ : Queue) [] [] []
        GearmanJobPriority.normal).2 ≠
      (⟨"gearman_queue".data, 0, 0, []⟩ : Queue) := by
  constructor
  · rfl
  · intro h
    have := congrArg Queue.in_trans h
    simp [sqliteAdd, sqliteLock, noAddFails, GEARMAN_QUEUE_QUERY_BUFFER]
      at this

/-- C7 amended: over every sequence of add/done/replay calls the query
buffer capacity never decreases (it grows only when the needed size
exceeds it); and when a resize fails the operation returns the allocation
error with capacity, table, and stored rows unchanged — only the
transaction flag may have been set Open by the `lock` step that precedes
the resize in `add`/`done`; `replay`, which takes no lock, is then a
complete no-op. -/
theorem buffer_capacity_monotone (q : Queue) :
    (∀ ops : List QueueOp, q.query_size ≤ (runOps q ops).query_size) ∧
    (∀ u fn dt p,
      (u.length + fn.length + dt.length) * 2 + GEARMAN_QUEUE_QUERY_BUFFER >
          q.query_size →
      (sqliteAdd { noAddFails with alloc := true } q u fn dt p).1 =
        GearmanReturn.memoryAllocationFailure ∧
      (sqliteAdd { noAddFails with alloc := true } q u fn dt p).2.query_size
        = q.query_size ∧
      (sqliteAdd { noAddFails with alloc := true } q u fn dt p).2.rows =
        q.rows ∧
      (sqliteAdd { noAddFails with alloc := true } q u fn dt p).2.table =
        q.table) ∧
    (∀ u fn,
      u.length * 2 + GEARMAN_QUEUE_QUERY_BUFFER > q.query_size →
      (sqliteDone { noDoneFails with alloc := true } q u fn).1 =
        GearmanReturn.memoryAllocationFailure ∧
      (sqliteDone { noDoneFails with alloc := true } q u fn).2.query_size =
        q.query_size ∧
      (sqliteDone { noDoneFails with alloc := true } q u fn).2.rows =
        q.rows ∧
      (sqliteDone { noDoneFails with alloc := true } q u fn).2.table =
        q.table) ∧
    (GEARMAN_QUEUE_QUERY_BUFFER > q.query_size →
      ∀ cb, sqliteReplay { noReplayFails with alloc := true } q cb =
        (GearmanReturn.memoryAllocationFailure, [], q)) := by
  refine ⟨fun ops => runOps_capacity_mono ops q, ?_, ?_, ?_⟩
  · intro u fn dt p hcap
    by_cases hi : q.in_trans = 0 <;>
      simp [sqliteAdd, sqliteLock, noAddFails, hi, hcap]
  · intro u fn hcap
    by_cases hi : q.in_trans = 0 <;>
      simp [sqliteDone, sqliteLock, noDoneFails, hi, hcap]
  · intro hcap cb
    simp [sqliteReplay, noReplayFails, hcap]

/-- Witness for C7 (amended): a resize failure in `done` with an oversized
key on a zero-capacity handle keeps the capacity at zero. -/
theorem buffer_capacity_monotone_witness :
    (sqliteDone { noDoneFails with alloc := true }
        (⟨"gearman_queue".data, 0, 0, []⟩ : Queue) [1] []).2.query_size
      = 0 :=
  ((buffer_capacity_monotone ⟨"gearman_queue".data, 0, 0, []⟩).2.2.1
    [1] [] (by decide)).2.1

set_option maxRecDepth 8000 in
/-- C8 counterexample: with a configured table name of 205 bytes — within
the documented 255-byte limit — the full SELECT text is 256 characters and
no longer fits the fixed 256-byte `snprintf` limit of `_sqlite_replay`: the
text handed to prepare is truncated, not the well-formed SELECT naming the
configured table, and the replay errors out. -/
theorem replay_truncates_205_byte_table_cex :
    snprintfText (selectQueryFull (List.replicate 205 'a'))
        GEARMAN_QUEUE_QUERY_BUFFER ≠
      selectQueryFull (List.replicate 205 'a') ∧
    (sqliteReplay noReplayFails
        (⟨List.replicate 205 'a', GEARMAN_QUEUE_QUERY_BUFFER, 0, []⟩ : Queue)
        (fun _ => GearmanReturn.success)).1 = GearmanReturn.queueError := by
  decide

/-- C8 amended: for every configured table name of at most 204 bytes (so
that the 51-byte SELECT scaffold plus the name still fit the fixed 256-byte
`snprintf` limit), replay builds the complete SELECT text of all four
columns naming exactly the configured table and issues it, iterating the
stored rows. -/
theorem replay_select_wellformed (q : Queue)
    (cb : QueueRow → GearmanReturn) (hT : q.table.length ≤ 204) :
    snprintfText (selectQueryFull q.table) GEARMAN_QUEUE_QUERY_BUFFER =
      selectQueryFull q.table ∧
    sqliteReplay noReplayFails q cb =
      ((replayLoop cb q.rows).1, (replayLoop cb q.rows).2,
        { q with
            query_size := max q.query_size GEARMAN_QUEUE_QUERY_BUFFER }) := by
  constructor
  · apply snprintfText_of_fits
    rw [selectQueryFull_length]
    simp only [GEARMAN_QUEUE_QUERY_BUFFER]
    omega
  · exact sqliteReplay_noFail q cb hT

/-- Witness for C8 (amended) on the default table name. -/
theorem replay_select_wellformed_witness :
    snprintfText (selectQueryFull "gearman_queue".data)
        GEARMAN_QUEUE_QUERY_BUFFER = selectQueryFull "gearman_queue".data :=
  (replay_select_wellformed ⟨"gearman_queue".data, 0, 0, []⟩
    (fun _ => GearmanReturn.success) (by decide)).1

/-- C9: if the callback fails on some row, replay stops there — the trace
of rows handed to the callback is the all-success initial segment plus that
first failing row only, and the returned status is that failing callback
result (success when every row is accepted); and in every case, under any
injected-failure profile, replay deletes nothing: the stored rows after
replay equal the rows before. -/
theorem replay_callback_failure_stops_and_propagates (q : Queue)
    (cb : QueueRow → GearmanReturn) (hT : q.table.length ≤ 204) :
    (sqliteReplay noReplayFails q cb).1 =
      (match q.rows.dropWhile
          (fun r => decide (cb r = GearmanReturn.success)) with
        | [] => GearmanReturn.success
        | r :: _ => cb r) ∧
    (sqliteReplay noReplayFails q cb).2.1 =
      q.rows.takeWhile (fun r => decide (cb r = GearmanReturn.success)) ++
        (q.rows.dropWhile
          (fun r => decide (cb r = GearmanReturn.success))).take 1 ∧
    ∀ fl : ReplayFails, (sqliteReplay fl q cb).2.2.rows = q.rows := by
  have h := sqliteReplay_noFail q cb hT
  refine ⟨?_, ?_, fun fl => (sqliteReplay_preserves fl q cb).1⟩
  · rw [h, replayLoop_spec]
  · rw [h, replayLoop_spec]

/-- Witness for C9: a callback that rejects everything sees only the first
of two stored rows and its failure status is returned. -/
theorem replay_callback_failure_stops_and_propagates_witness :
    (sqliteReplay noReplayFails
        (⟨"gearman_queue".data, 0, 0,
          [⟨[1], [2], GearmanJobPriority.high, []⟩,
           ⟨[3], [4], GearmanJobPriority.low, [5]⟩]⟩ : Queue)
        (fun _ => GearmanReturn.queueError)).1 = GearmanReturn.queueError := by
  have h := (replay_callback_failure_stops_and_propagates
    ⟨"gearman_queue".data, 0, 0,
      [⟨[1], [2], GearmanJobPriority.high, []⟩,
       ⟨[3], [4], GearmanJobPriority.low, [5]⟩]⟩
    (fun _ => GearmanReturn.queueError) (by decide)).1
  simpa using h

/-- C10 (implicit): `done` ignores its function_name argument entirely —
its result is identical for any two function_name arguments, and a stored
row whose unique_key matches the given key is deleted even when the
supplied function_name differs from the one stored in that row. -/
theorem done_ignores_function_name :
    (∀ (fl : DoneFails) (q : Queue) (u fn1 fn2 : Bytes),
      sqliteDone fl q u fn1 = sqliteDone fl q u fn2) ∧
    (∀ (q : Queue) (u fn : Bytes) (r : QueueRow), q.table.length ≤ 224 →
      r ∈ q.rows → r.unique_key = u →
      r ∉ (sqliteDone noDoneFails q u fn).2.rows) := by
  constructor
  · intro fl q u fn1 fn2
    rfl
  · intro q u fn r hT hr hk
    rw [sqliteDone_noFail q u fn hT]
    intro hmem
    have hpred := (List.mem_filter.mp hmem).2
    simp [hk] at hpred

/-- Witness for C10: key `[1]` with stored function_name `[7]` is deleted
by a `done` that supplies the different function_name `[8]`. -/
theorem done_ignores_function_name_witness :
    (⟨[1], [7], GearmanJobPriority.high, [9]⟩ : QueueRow) ∉
      (sqliteDone noDoneFails
        (⟨"gearman_queue".data, 0, 0,
          [⟨[1], [7], GearmanJobPriority.high, [9]⟩]⟩ : Queue)
        [1] [8]).2.rows :=
  done_ignores_function_name.2
    ⟨"gearman_queue".data, 0, 0, [⟨[1], [7], GearmanJobPriority.high, [9]⟩]⟩
    [1] [8] ⟨[1], [7], GearmanJobPriority.high, [9]⟩ (by decide) (by simp)
    rfl

end GearmanSqlite
